import Mathlib

/-!
Verification of the steel QR-scan ingestion pipeline.

Shallow embedding of the parts of the source relevant to the frozen
claims: the batch merger's target-folder selection and input ordering
(`src/batch_processor.py`), the pending-folder move (`src/processor.py`),
PDF merging with page dedup (`src/pdf_processor.py`), the NAS / HTTP
uploaders and the upload-manager dispatch (`src/uploader.py`), the
PAUSE command and batch scheduler (`src/api/standard.py`,
`src/processor.py`), the instance registry (`src/registry/manager.py`)
and the login rate limiter (`src/auth/rate_limit.py`).

Machine state that the Python mutates in place is passed explicitly;
code that can raise is modelled with `Except` / `Option`; `try/except`
blocks become explicit handlers.  Times and sizes are naturals.
-/

namespace Steel

/-- The three live queue folders that the merge cycle scans
(`batch_processor.py`, `folders_to_scan`). -/
inductive Folder
  | pending
  | merged
  | uploaded
deriving DecidableEq, Repr

/-- A file entry as the merge cycle sees it: the filename stem split
into the transport-number part and the optional parenthesised
anti-collision suffix (`filename.split('(')` in
`_process_pending_documents`). -/
structure Entry where
  stem : String
  suffix : Option Nat
deriving DecidableEq, Repr

/-- One merge-cycle group for a single transport number: the files
found for it in each of the three folders
(`transport_groups[transport_no][folder_name]`). -/
structure FileGroup where
  pending : List Entry
  merged : List Entry
  uploaded : List Entry
deriving DecidableEq, Repr

/-- Target folder selection of
`BatchProcessor._merge_transport_group_from_all_folders`
(batch_processor.py lines 143-160):
`has_new_files = len(file_groups['pending']) > 0`,
`was_uploaded = len(file_groups['uploaded']) > 0`;
if both then merged, elif `file_groups['uploaded']` then uploaded,
else merged. -/
def determineTarget (g : FileGroup) : Folder :=
  let hasNewFiles := decide (0 < g.pending.length)
  let wasUploaded := decide (0 < g.uploaded.length)
  if wasUploaded && hasNewFiles then Folder.merged
  else if !g.uploaded.isEmpty then Folder.uploaded
  else Folder.merged

/-- The target-folder rule exactly as claim C1 words it: pending and
uploaded present → merged; uploaded only (no pending, no merged) →
uploaded; every other case, including merged plus uploaded with no
pending, → merged.  Written from the claim for comparison with
`determineTarget`, which is written from the source. -/
def claimTargetC1 (g : FileGroup) : Folder :=
  if !g.pending.isEmpty && !g.uploaded.isEmpty then Folder.merged
  else if !g.uploaded.isEmpty && g.pending.isEmpty && g.merged.isEmpty then
    Folder.uploaded
  else Folder.merged

/-- Guard of `_process_pending_documents` deciding whether a group is
re-merged at all: `if pending_files or total_files > 1`. -/
def needsRemerge (g : FileGroup) : Bool :=
  !g.pending.isEmpty ||
    decide (1 < g.pending.length + g.merged.length + g.uploaded.length)

/-- Upload-manager dispatch of `UploadManager.__init__`
(uploader.py lines 263-277). -/
inductive UploaderKind
  | dummy
  | nas
  | http
  | combined
deriving DecidableEq, Repr

/-- `UploadManager.__init__`: `none` → DummyUploader, `nas` →
NASUploader, `http` → HTTPUploader, `both` → CombinedUploader, any
other value raises `ValueError`. -/
def uploadManagerInit (t : String) : Except String UploaderKind :=
  if t = "none" then Except.ok UploaderKind.dummy
  else if t = "nas" then Except.ok UploaderKind.nas
  else if t = "http" then Except.ok UploaderKind.http
  else if t = "both" then Except.ok UploaderKind.combined
  else Except.error ("지원하지 않는 업로드 타입: " ++ t)

end Steel

namespace Steel

/-- Claim C1 counterexample: a group holding one merged file and one
uploaded file and no pending file.  The source sends it to *uploaded*
(the `elif file_groups['uploaded']` branch fires because only
`has_new_files`, not the merged list, is consulted), while the claim's
rule sends it to *merged*. -/
theorem C1_counterexample :
    determineTarget ⟨[], [⟨"77777777777777", none⟩], [⟨"77777777777777", none⟩]⟩
        = Folder.uploaded ∧
      claimTargetC1 ⟨[], [⟨"77777777777777", none⟩], [⟨"77777777777777", none⟩]⟩
        = Folder.merged := by
  constructor <;> rfl

/-- Claim C1 (amended): the target is *uploaded* exactly when the group
has no pending file and at least one uploaded file — regardless of
whether merged files are present — and *merged* in every other case. -/
theorem C1_target_folder (g : FileGroup) :
    (determineTarget g = Folder.uploaded ↔ g.pending = [] ∧ g.uploaded ≠ []) ∧
      (determineTarget g = Folder.merged ↔ ¬(g.pending = [] ∧ g.uploaded ≠ [])) := by
  unfold determineTarget
  rcases g with ⟨p, m, u⟩
  cases p <;> cases u <;> simp [List.isEmpty]

/-- Claim C6 counterexample: constructing the upload manager with
`upload.type = "dual"` raises `ValueError` instead of selecting the
combined backend; the combined backend is keyed `"both"`. -/
theorem C6_counterexample :
    uploadManagerInit "dual" = Except.error "지원하지 않는 업로드 타입: dual" ∧
      uploadManagerInit "both" = Except.ok UploaderKind.combined := by
  constructor <;> rfl

/-- Claim C6 (amended): the recognised `upload.type` values are `nas`,
`http`, `both` and `none`, selecting the NAS, HTTP, combined and dummy
backends; any other value — `dual` included — raises `ValueError`. -/
theorem C6_dispatch :
    uploadManagerInit "nas" = Except.ok UploaderKind.nas ∧
      uploadManagerInit "http" = Except.ok UploaderKind.http ∧
      uploadManagerInit "both" = Except.ok UploaderKind.combined ∧
      uploadManagerInit "none" = Except.ok UploaderKind.dummy ∧
      ∀ t : String, t ∉ ["none", "nas", "http", "both"] →
        uploadManagerInit t = Except.error ("지원하지 않는 업로드 타입: " ++ t) := by
  refine ⟨rfl, rfl, rfl, rfl, ?_⟩
  intro t ht
  simp only [List.mem_cons, List.mem_singleton, not_or] at ht
  obtain ⟨h1, h2, h3, h4, -⟩ := ht
  unfold uploadManagerInit
  simp [h1, h2, h3, h4]

/-- Claim C6 witness: the dispatch theorem applied at the concrete
unrecognised type `"ftp"`. -/
theorem C6_dispatch_witness :
    uploadManagerInit "ftp" = Except.error "지원하지 않는 업로드 타입: ftp" :=
  C6_dispatch.2.2.2.2 "ftp" (by decide)

end Steel


namespace Steel

/-- Python compares strings lexicographically by code point; string
order is embedded as this structural comparator on the underlying
character lists (strict part). -/
def charListLtb : List Char → List Char → Bool
  | [], [] => false
  | [], _ :: _ => true
  | _ :: _, [] => false
  | a :: as, b :: bs =>
    if a < b then true else if b < a then false else charListLtb as bs

/-- Non-strict lexicographic comparator on character lists. -/
def charListLeb : List Char → List Char → Bool
  | [], _ => true
  | _ :: _, [] => false
  | a :: as, b :: bs =>
    if a < b then true else if b < a then false else charListLeb as bs

theorem charListLeb_refl : ∀ s, charListLeb s s = true
  | [] => rfl
  | a :: as => by simp [charListLeb, lt_irrefl, charListLeb_refl as]

theorem charListLeb_total : ∀ s t, charListLeb s t = true ∨ charListLeb t s = true
  | [], _ => Or.inl rfl
  | _ :: _, [] => Or.inr rfl
  | a :: as, b :: bs => by
    by_cases h1 : a < b
    · left; simp [charListLeb, h1]
    · by_cases h2 : b < a
      · right; simp [charListLeb, h2]
      · rcases charListLeb_total as bs with h | h
        · left; simp [charListLeb, h1, h2, h]
        · right; simp [charListLeb, h1, h2, h]

theorem charListLeb_trans :
    ∀ s t u, charListLeb s t = true → charListLeb t u = true →
      charListLeb s u = true
  | [], _, _ => fun _ _ => rfl
  | _ :: _, [], _ => by intro h _; simp [charListLeb] at h
  | _ :: _, _ :: _, [] => by intro _ h; simp [charListLeb] at h
  | a :: as, b :: bs, c :: cs => by
    intro h1 h2
    simp only [charListLeb] at h1 h2 ⊢
    by_cases hab : a < b
    · by_cases hbc : b < c
      · simp [lt_trans hab hbc]
      · by_cases hcb : c < b
        · simp [hbc, hcb] at h2
        · have : b = c := le_antisymm (not_lt.mp hcb) (not_lt.mp hbc)
          simp [this ▸ hab]
    · by_cases hba : b < a
      · simp [hab, hba] at h1
      · have hab' : a = b := le_antisymm (not_lt.mp hba) (not_lt.mp hab)
        by_cases hbc : b < c
        · simp [hab' ▸ hbc]
        · by_cases hcb : c < b
          · simp [hbc, hcb] at h2
          · have hbc' : b = c := le_antisymm (not_lt.mp hcb) (not_lt.mp hbc)
            simp only [hab, hba, if_neg, if_false] at h1
            simp only [hbc, hcb, if_neg, if_false] at h2
            have := charListLeb_trans as bs cs (by simpa using h1) (by simpa using h2)
            simp [hab', hbc', lt_irrefl, this]

theorem charListLtb_or_eq_of_leb :
    ∀ s t, charListLeb s t = true → charListLtb s t = true ∨ s = t
  | [], [] => fun _ => Or.inr rfl
  | [], _ :: _ => fun _ => Or.inl rfl
  | _ :: _, [] => by intro h; simp [charListLeb] at h
  | a :: as, b :: bs => by
    intro h
    simp only [charListLeb] at h
    simp only [charListLtb]
    by_cases h1 : a < b
    · left; simp [h1]
    · by_cases h2 : b < a
      · simp [h1, h2] at h
      · have hab : a = b := le_antisymm (not_lt.mp h2) (not_lt.mp h1)
        simp only [h1, h2, if_neg, if_false] at h ⊢
        rcases charListLtb_or_eq_of_leb as bs (by simpa using h) with h' | h'
        · left; simpa using h'
        · right; rw [hab, h']

theorem charListLeb_of_ltb :
    ∀ s t, charListLtb s t = true → charListLeb s t = true
  | [], _ => fun _ => rfl
  | _ :: _, [] => by intro h; simp [charListLtb] at h
  | a :: as, b :: bs => by
    intro h
    simp only [charListLtb] at h
    simp only [charListLeb]
    by_cases h1 : a < b
    · simp [h1]
    · by_cases h2 : b < a
      · simp [h1, h2] at h
      · simp only [h1, h2, if_neg, if_false] at h ⊢
        simpa using charListLeb_of_ltb as bs (by simpa using h)

theorem charListLtb_of_not_leb {s t : List Char}
    (h : charListLeb s t = false) : charListLtb t s = true := by
  have hts : charListLeb t s = true := by
    rcases charListLeb_total s t with h' | h'
    · rw [h'] at h; cases h
    · exact h'
  rcases charListLtb_or_eq_of_leb t s hts with h' | h'
  · exact h'
  · subst h'
    rw [charListLeb_refl] at h
    cases h

theorem string_eq_of_data {s t : String} (h : s.data = t.data) : s = t := by
  cases s
  cases t
  exact congrArg String.mk h

end Steel

namespace Steel

/-- A file as the caller's sort in
`_merge_transport_group_from_all_folders` sees it: its filename, the
queue folder it came from, and its modification time.  The source
keys the folder by the substring tests `'uploaded' in str(f)` /
`'merged' in str(f)` on the file's full path; under the canonical
layout `data_root/<folder>/<name>.pdf` those tests are exactly the
folder-of-origin test embedded here. -/
structure SrcFile where
  name : String
  folder : Folder
  mtime : Nat
deriving DecidableEq, Repr

/-- First component of the caller's sort key (batch_processor.py lines
180-183): `0 if 'uploaded' in str(f) else 1 if 'merged' in str(f)
else 2`. -/
def sortRank (f : SrcFile) : Nat :=
  if f.folder = Folder.uploaded then 0
  else if f.folder = Folder.merged then 1
  else 2

/-- The caller's full sort key `(rank, mtime)`, compared
lexicographically as Python compares tuples. -/
def batchKey (f : SrcFile) : Lex (Nat × Nat) := toLex (sortRank f, f.mtime)

/-- Comparison used by `all_pdf_files.sort(key=...)`. -/
def batchKeyLe (a b : SrcFile) : Prop := batchKey a ≤ batchKey b

instance : DecidableRel batchKeyLe := fun a b =>
  inferInstanceAs (Decidable (batchKey a ≤ batchKey b))

instance : IsTotal SrcFile batchKeyLe :=
  ⟨fun a b => le_total (batchKey a) (batchKey b)⟩

instance : IsTrans SrcFile batchKeyLe :=
  ⟨fun _ _ _ h1 h2 => le_trans h1 h2⟩

/-- Comparison used by `sorted(pdf_files, key=lambda x: x.name)` in
`PDFProcessor.merge_pdfs` (pdf_processor.py line 68): Python string
order on the filename. -/
def nameLe (a b : SrcFile) : Prop :=
  charListLeb a.name.data b.name.data = true

instance : DecidableRel nameLe := fun a b =>
  inferInstanceAs (Decidable (charListLeb a.name.data b.name.data = true))

instance : IsTotal SrcFile nameLe :=
  ⟨fun a b => charListLeb_total a.name.data b.name.data⟩

instance : IsTrans SrcFile nameLe :=
  ⟨fun _ _ _ h1 h2 => charListLeb_trans _ _ _ h1 h2⟩

/-- Python's `list.sort` / `sorted` is the stable sort; Mathlib's
`insertionSort` with a reflexive total relation is the same list
function.  The caller's sort of batch_processor.py lines 180-183. -/
def batchSort (files : List SrcFile) : List SrcFile :=
  List.insertionSort batchKeyLe files

/-- The name re-sort performed inside `merge_pdfs` on the list it
receives from the caller. -/
def mergeNameSort (files : List SrcFile) : List SrcFile :=
  List.insertionSort nameLe files

/-- The order in which pages actually enter the merged artifact: the
caller sorts by `(folder-rank, mtime)`, then `merge_pdfs` re-sorts the
result by filename (stable). -/
def effectiveMergeOrder (files : List SrcFile) : List SrcFile :=
  mergeNameSort (batchSort files)

/-- The composite ordering that, as proved below, actually governs the
merge order: filename first, then folder rank, then mtime. -/
def effLe (a b : SrcFile) : Prop :=
  charListLtb a.name.data b.name.data = true ∨
    (a.name = b.name ∧ batchKeyLe a b)

/-- The ordering claim C3 states: oldest-first by mtime with the folder
rank only as a tie-break.  Written from the claim for comparison with
`effectiveMergeOrder`, which is written from the source. -/
def claimKeyC3 (f : SrcFile) : Lex (Nat × Nat) := toLex (f.mtime, sortRank f)

/-- Comparison for the order claim C3 states. -/
def claimLeC3 (a b : SrcFile) : Prop := claimKeyC3 a ≤ claimKeyC3 b

instance : DecidableRel claimLeC3 := fun a b =>
  inferInstanceAs (Decidable (claimKeyC3 a ≤ claimKeyC3 b))

/-- Sorting as claim C3 describes the merge order. -/
def claimOrderC3 (files : List SrcFile) : List SrcFile :=
  List.insertionSort claimLeC3 files

theorem name_le_of_effLe {a b : SrcFile} (h : effLe a b) : nameLe a b := by
  rcases h with h | ⟨h, -⟩
  · exact charListLeb_of_ltb _ _ h
  · show charListLeb _ _ = true
    rw [h]
    exact charListLeb_refl _

theorem effLe_of_le_of_batch {a b : SrcFile} (h1 : nameLe a b)
    (h2 : batchKeyLe a b) : effLe a b := by
  rcases charListLtb_or_eq_of_leb _ _ h1 with h' | h'
  · exact Or.inl h'
  · exact Or.inr ⟨string_eq_of_data h', h2⟩

/-- Inserting, by name, an element whose `(rank, mtime)` key is below
everything in an `effLe`-sorted list keeps the list `effLe`-sorted:
the stability step. -/
theorem sorted_orderedInsert_eff (a : SrcFile) :
    ∀ m : List SrcFile, m.Sorted effLe → (∀ x ∈ m, batchKeyLe a x) →
      (m.orderedInsert nameLe a).Sorted effLe := by
  intro m
  induction m with
  | nil => intro _ _; simp [List.orderedInsert, List.sorted_singleton]
  | cons b rest ih =>
    intro hs hall
    rw [List.orderedInsert]
    by_cases h : nameLe a b
    · rw [if_pos h]
      refine List.sorted_cons.mpr ⟨?_, hs⟩
      intro x hx
      rcases List.mem_cons.mp hx with rfl | hxr
      · exact effLe_of_le_of_batch h (hall _ (List.mem_cons_self _ _))
      · have hbx : effLe b x := (List.sorted_cons.mp hs).1 x hxr
        exact effLe_of_le_of_batch
          (charListLeb_trans _ _ _ h (name_le_of_effLe hbx))
          (hall _ (List.mem_cons_of_mem _ hxr))
    · rw [if_neg h]
      have hrest : rest.Sorted effLe := (List.sorted_cons.mp hs).2
      refine List.sorted_cons.mpr ⟨?_, ih hrest
        (fun x hx => hall _ (List.mem_cons_of_mem _ hx))⟩
      intro x hx
      rcases (List.mem_orderedInsert nameLe).mp hx with rfl | hxr
      · exact Or.inl (charListLtb_of_not_leb (Bool.not_eq_true _ ▸ eq_false_of_ne_true h))
      · exact (List.sorted_cons.mp hs).1 x hxr

/-- A stable sort by filename of a list already sorted by
`(rank, mtime)` is sorted by the lexicographic composite key. -/
theorem sorted_mergeNameSort_of_sorted_batch :
    ∀ l : List SrcFile, l.Sorted batchKeyLe →
      (mergeNameSort l).Sorted effLe := by
  intro l
  induction l with
  | nil => intro _; simp [mergeNameSort, List.insertionSort]
  | cons a l ih =>
    intro hs
    have h1 : ∀ x ∈ l, batchKeyLe a x := (List.sorted_cons.mp hs).1
    have h2 : l.Sorted batchKeyLe := (List.sorted_cons.mp hs).2
    show (List.orderedInsert nameLe a (List.insertionSort nameLe l)).Sorted effLe
    refine sorted_orderedInsert_eff a _ (ih h2) ?_
    intro x hx
    exact h1 x ((List.mem_insertionSort nameLe).mp hx)

end Steel

namespace Steel

/-- Claim C3 counterexample: a pending file older (mtime 5) than an
uploaded file (mtime 10), both named `77777777777777.pdf`.  The claim's
oldest-first order puts the pending file first; the code's composed
sorts put the uploaded file first, because folder rank is the primary
key of the caller's sort and the merger's name re-sort is stable. -/
theorem C3_counterexample :
    effectiveMergeOrder
        [⟨"77777777777777.pdf", Folder.pending, 5⟩,
         ⟨"77777777777777.pdf", Folder.uploaded, 10⟩] =
      [⟨"77777777777777.pdf", Folder.uploaded, 10⟩,
       ⟨"77777777777777.pdf", Folder.pending, 5⟩] ∧
    claimOrderC3
        [⟨"77777777777777.pdf", Folder.pending, 5⟩,
         ⟨"77777777777777.pdf", Folder.uploaded, 10⟩] =
      [⟨"77777777777777.pdf", Folder.pending, 5⟩,
       ⟨"77777777777777.pdf", Folder.uploaded, 10⟩] := by
  constructor <;> decide

/-- Claim C3 (amended): the merge order is a permutation of the group's
inputs sorted by filename first, folder rank (uploaded before merged
before pending) second and modification time last — modification time
is the final tie-break, not the primary key. -/
theorem C3_merge_order (files : List SrcFile) :
    (effectiveMergeOrder files).Perm files ∧
      (effectiveMergeOrder files).Sorted effLe := by
  constructor
  · exact (List.perm_insertionSort nameLe _).trans
      (List.perm_insertionSort batchKeyLe files)
  · exact sorted_mergeNameSort_of_sorted_batch _
      (List.sorted_insertionSort batchKeyLe files)

end Steel

namespace Steel

/-- A path under the `pending` folder: the optional date subfolder
component and the structured filename
(`<stem>.pdf` or `<stem>(<suffix>).pdf`). -/
structure PendingPath where
  subdir : Option String
  name : Entry
deriving DecidableEq, Repr

/-- Whether the candidate collision name `<stem>(<n>).pdf` already
exists in the date subfolder (`dest_path.exists()` inside the
`while True` loop of `QRScanProcessor._move_to_pending`). -/
def pendingUsed (existing : List PendingPath) (dir : Option String)
    (stem : String) (n : Nat) : Bool :=
  decide ((⟨dir, ⟨stem, some n⟩⟩ : PendingPath) ∈ existing)

/-- The `counter = 1; while True: ...; counter += 1` search of
`_move_to_pending` (processor.py lines 208-213): the smallest counter
from `c` on whose name is free.  The loop always terminates because
only finitely many names exist; the fuel argument makes that explicit
and is chosen large enough below. -/
def smallestFreeFrom (used : Nat → Bool) : Nat → Nat → Nat
  | 0, c => c
  | fuel + 1, c => if used c then smallestFreeFrom used fuel (c + 1) else c

/-- Upper bound on every parenthesised suffix present in the folder. -/
def suffixBound (existing : List PendingPath) : Nat :=
  existing.foldr (fun p acc => max acc (p.name.suffix.getD 0)) 0

/-- `QRScanProcessor._move_to_pending` (processor.py lines 195-221):
the destination chosen for a classified file with transport number
`tn`.  `date_folder = transport_no[:8]`; the target directory is
`pending/<date_folder>`; the name is `<tn>.pdf`, or `<tn>(<n>).pdf`
with the smallest free `n ≥ 1` when `<tn>.pdf` already exists there. -/
def moveToPending (existing : List PendingPath) (tn : String) : PendingPath :=
  let dateFolder := String.mk (tn.data.take 8)
  let dir := some dateFolder
  let base : PendingPath := ⟨dir, ⟨tn, none⟩⟩
  if base ∈ existing then
    ⟨dir, ⟨tn, some (smallestFreeFrom (pendingUsed existing dir tn)
      (suffixBound existing + 1) 1)⟩⟩
  else base

/-- The merge cycle's enumeration of the pending folder
(`folder_path.glob("*.pdf")` in `_process_pending_documents`,
batch_processor.py lines 86-90): non-recursive, so only entries
directly under `pending/` are returned. -/
def flatPendingGlob (files : List PendingPath) : List PendingPath :=
  files.filter (fun q => decide (q.subdir = none))

theorem suffixBound_spec {existing : List PendingPath} {p : PendingPath}
    (hp : p ∈ existing) {k : Nat} (hk : p.name.suffix = some k) :
    k ≤ suffixBound existing := by
  induction existing with
  | nil => cases hp
  | cons q rest ih =>
    rcases List.mem_cons.mp hp with rfl | hp'
    · show k ≤ max _ _
      rw [hk]
      exact le_max_of_le_right (le_of_eq rfl)
    · exact le_max_of_le_left (ih hp')

theorem smallestFreeFrom_spec (used : Nat → Bool) :
    ∀ (fuel c : Nat), (∃ m, c ≤ m ∧ m ≤ c + fuel ∧ used m = false) →
      used (smallestFreeFrom used fuel c) = false ∧
        c ≤ smallestFreeFrom used fuel c ∧
        ∀ k, c ≤ k → k < smallestFreeFrom used fuel c → used k = true := by
  intro fuel
  induction fuel with
  | zero =>
    intro c ⟨m, h1, h2, h3⟩
    have : m = c := le_antisymm (by omega) h1
    subst this
    refine ⟨h3, le_refl _, ?_⟩
    intro k hk1 hk2
    simp only [smallestFreeFrom] at hk2
    omega
  | succ fuel ih =>
    intro c hex
    obtain ⟨m, h1, h2, h3⟩ := hex
    simp only [smallestFreeFrom]
    by_cases hc : used c = true
    · rw [if_pos hc]
      have hmc : m ≠ c := by
        intro h
        rw [h, hc] at h3
        cases h3
      obtain ⟨r1, r2, r3⟩ := ih (c + 1) ⟨m, by omega, by omega, h3⟩
      refine ⟨r1, by omega, ?_⟩
      intro k hk1 hk2
      by_cases hkc : k = c
      · subst hkc; exact hc
      · exact r3 k (by omega) hk2
    · rw [if_neg hc]
      exact ⟨Bool.eq_false_iff.mpr hc, le_refl _, fun k hk1 hk2 => by omega⟩

end Steel

namespace Steel

/-- Claim C2 counterexample: on an empty pending tree, the classified
file for transport number `20251010123456` is moved to
`pending/20251010/20251010123456.pdf` — a dated subfolder, not directly
under the flat pending folder — and the merge cycle's non-recursive
`pending/*.pdf` enumeration consequently does not list it. -/
theorem C2_counterexample :
    moveToPending [] "20251010123456" =
        ⟨some "20251010", ⟨"20251010123456", none⟩⟩ ∧
      (moveToPending [] "20251010123456").subdir ≠ none ∧
      flatPendingGlob [moveToPending [] "20251010123456"] = [] := by
  refine ⟨by decide, by decide, by decide⟩

/-- Claim C2 (amended): a successfully classified file for transport
number `tn` is moved to `pending/<tn[:8]>/<tn>.pdf` — a date-named
subfolder of pending, not the flat pending folder — falling back to
`<tn>(n).pdf` with the smallest free `n ≥ 1` inside that subfolder when
`<tn>.pdf` already exists there; because the destination sits in a
subfolder, the merge cycle's flat `pending/*.pdf` enumeration does not
find it. -/
theorem C2_move_to_pending (existing : List PendingPath) (tn : String) :
    (moveToPending existing tn).subdir = some (String.mk (tn.data.take 8)) ∧
      (moveToPending existing tn).name.stem = tn ∧
      moveToPending existing tn ∉ existing ∧
      ((moveToPending existing tn).name.suffix = none →
        (⟨some (String.mk (tn.data.take 8)), ⟨tn, none⟩⟩ : PendingPath) ∉ existing) ∧
      (∀ n, (moveToPending existing tn).name.suffix = some n →
        1 ≤ n ∧
          (⟨some (String.mk (tn.data.take 8)), ⟨tn, none⟩⟩ : PendingPath) ∈ existing ∧
          ∀ m, 1 ≤ m → m < n →
            (⟨some (String.mk (tn.data.take 8)), ⟨tn, some m⟩⟩ : PendingPath) ∈ existing) ∧
      flatPendingGlob (moveToPending existing tn :: existing) =
        flatPendingGlob existing := by
  have hfree :
      pendingUsed existing (some (String.mk (tn.data.take 8))) tn
          (suffixBound existing + 1) = false := by
    rw [pendingUsed, decide_eq_false_iff_not]
    intro hmem
    have := suffixBound_spec hmem (k := suffixBound existing + 1) rfl
    omega
  have hspec := smallestFreeFrom_spec
    (pendingUsed existing (some (String.mk (tn.data.take 8))) tn)
    (suffixBound existing + 1) 1
    ⟨suffixBound existing + 1, by omega, by omega, hfree⟩
  obtain ⟨hs1, hs2, hs3⟩ := hspec
  by_cases hbase :
      (⟨some (String.mk (tn.data.take 8)), ⟨tn, none⟩⟩ : PendingPath) ∈ existing
  · have hmv : moveToPending existing tn =
        ⟨some (String.mk (tn.data.take 8)), ⟨tn, some (smallestFreeFrom
          (pendingUsed existing (some (String.mk (tn.data.take 8))) tn)
          (suffixBound existing + 1) 1)⟩⟩ := by
      rw [moveToPending, if_pos hbase]
    rw [hmv]
    refine ⟨rfl, rfl, ?_, ?_, ?_, ?_⟩
    · intro hmem
      rw [pendingUsed, decide_eq_false_iff_not] at hs1
      exact hs1 hmem
    · intro h
      cases h
    · intro n hn
      obtain rfl : smallestFreeFrom
          (pendingUsed existing (some (String.mk (tn.data.take 8))) tn)
          (suffixBound existing + 1) 1 = n := by
        cases hn
        rfl
      refine ⟨hs2, hbase, ?_⟩
      intro m hm1 hm2
      have := hs3 m hm1 hm2
      rwa [pendingUsed, decide_eq_true_eq] at this
    · rw [flatPendingGlob, List.filter_cons]
      simp [flatPendingGlob]
  · have hmv : moveToPending existing tn =
        ⟨some (String.mk (tn.data.take 8)), ⟨tn, none⟩⟩ := by
      rw [moveToPending, if_neg hbase]
    rw [hmv]
    refine ⟨rfl, rfl, hbase, fun _ => hbase, ?_, ?_⟩
    · intro n hn
      cases hn
    · rw [flatPendingGlob, List.filter_cons]
      simp [flatPendingGlob]

end Steel

namespace Steel

/-- One PDF page as the merger sees it: the hash of its serialized
single-page document, and whether that serialization/hash computation
succeeds (`merge_pdfs` wraps it in `try/except` and, on failure, adds
the page in "safe mode" without registering its hash). -/
structure Page where
  hash : Nat
  hashable : Bool
deriving DecidableEq, Repr

/-- An input file of `PDFProcessor.merge_pdfs`: `pages = none` models
`PdfReader` raising, in which case the file is skipped
("개별 파일 오류는 무시하고 계속 진행"). -/
structure PdfFile where
  name : String
  pages : Option (List Page)
deriving DecidableEq, Repr

/-- Filename comparison for the `sorted(pdf_files, key=lambda x:
x.name)` at pdf_processor.py line 68. -/
def pdfNameLe (a b : PdfFile) : Prop :=
  charListLeb a.name.data b.name.data = true

instance : DecidableRel pdfNameLe := fun a b =>
  inferInstanceAs (Decidable (charListLeb a.name.data b.name.data = true))

instance : IsTotal PdfFile pdfNameLe :=
  ⟨fun a b => charListLeb_total a.name.data b.name.data⟩

instance : IsTrans PdfFile pdfNameLe :=
  ⟨fun _ _ _ h1 h2 => charListLeb_trans _ _ _ h1 h2⟩

/-- Accumulator of the page loop in `merge_pdfs`: the `page_hashes`
set, the pages handed to the `PdfWriter`, and `duplicate_count`. -/
structure MergeState where
  seen : Finset Nat
  out : List Page
  dups : Nat
deriving DecidableEq

/-- One iteration of the page loop (pdf_processor.py lines 74-107):
with dedup on, a hashable page already in `page_hashes` is skipped and
counted; a hashable new page registers its hash and is written; a page
whose hash computation fails is written without registering (safe
mode); with dedup off every page is written. -/
def mergeStep (removeDup : Bool) (st : MergeState) (p : Page) : MergeState :=
  if removeDup then
    if p.hashable then
      if p.hash ∈ st.seen then { st with dups := st.dups + 1 }
      else { seen := insert p.hash st.seen, out := st.out ++ [p], dups := st.dups }
    else { st with out := st.out ++ [p] }
  else { st with out := st.out ++ [p] }

/-- All pages of the readable input files, in input order. -/
def readablePages (files : List PdfFile) : List Page :=
  files.flatMap (fun f => f.pages.getD [])

/-- Return dict of `merge_pdfs`. -/
structure MergeResult where
  success : Bool
  page_count : Nat
  duplicate_count : Nat
  outPages : List Page
  error : Option String
deriving DecidableEq, Repr

/-- `PDFProcessor.merge_pdfs` (pdf_processor.py lines 38-138): empty
input list is an error; otherwise files are sorted by name, pages of
readable files are fed through the dedup loop; zero written pages is
an error; otherwise success with the written pages and counters. -/
def mergeRun (removeDup : Bool) (files : List PdfFile) : MergeState :=
  (readablePages (List.insertionSort pdfNameLe files)).foldl
    (mergeStep removeDup) ⟨∅, [], 0⟩

/-- `PDFProcessor.merge_pdfs`, result assembly: empty input list is an
error; zero written pages is an error; otherwise success with the
written pages and counters. -/
def mergePdfs (removeDup : Bool) (files : List PdfFile) : MergeResult :=
  if files.isEmpty then
    ⟨false, 0, 0, [], some "병합할 PDF 파일이 없습니다."⟩
  else if (mergeRun removeDup files).out.length = 0 then
    ⟨false, 0, 0, [], some "병합할 유효한 페이지가 없습니다."⟩
  else
    ⟨true, (mergeRun removeDup files).out.length, (mergeRun removeDup files).dups,
      (mergeRun removeDup files).out, none⟩

/-- Loop invariant of the dedup page loop, for runs in which every
page's hash computation succeeds: the hash set mirrors the written
pages, written hashes stay distinct, and the set grows by exactly the
hashes of the processed pages. -/
theorem mergeFold_spec :
    ∀ (ps : List Page) (st : MergeState),
      (∀ p ∈ ps, p.hashable = true) →
      st.seen = (st.out.map Page.hash).toFinset →
      (st.out.map Page.hash).Nodup →
      (ps.foldl (mergeStep true) st).seen =
          ((ps.foldl (mergeStep true) st).out.map Page.hash).toFinset ∧
        ((ps.foldl (mergeStep true) st).out.map Page.hash).Nodup ∧
        (ps.foldl (mergeStep true) st).seen =
          st.seen ∪ (ps.map Page.hash).toFinset := by
  intro ps
  induction ps with
  | nil =>
    intro st _ h1 h2
    exact ⟨h1, h2, by simp⟩
  | cons p ps ih =>
    intro st hall h1 h2
    have hp : p.hashable = true := hall p (List.mem_cons_self _ _)
    have hall' : ∀ q ∈ ps, q.hashable = true :=
      fun q hq => hall q (List.mem_cons_of_mem _ hq)
    rw [List.foldl_cons]
    by_cases hmem : p.hash ∈ st.seen
    · have hstep : mergeStep true st p = { st with dups := st.dups + 1 } := by
        rw [mergeStep, if_pos rfl, hp, if_pos rfl, if_pos hmem]
      rw [hstep]
      obtain ⟨r1, r2, r3⟩ := ih { st with dups := st.dups + 1 } hall' h1 h2
      refine ⟨r1, r2, ?_⟩
      rw [r3]
      ext x
      simp only [Finset.mem_union, List.map_cons, List.toFinset_cons, Finset.mem_insert]
      constructor
      · rintro (hx | hx)
        · exact Or.inl hx
        · exact Or.inr (Or.inr hx)
      · rintro (hx | rfl | hx)
        · exact Or.inl hx
        · exact Or.inl hmem
        · exact Or.inr hx
    · have hstep : mergeStep true st p =
          ⟨insert p.hash st.seen, st.out ++ [p], st.dups⟩ := by
        rw [mergeStep, if_pos rfl, hp, if_pos rfl, if_neg hmem]
      rw [hstep]
      have h1' : insert p.hash st.seen =
          (((st.out ++ [p]).map Page.hash)).toFinset := by
        rw [List.map_append, List.toFinset_append, h1]
        ext x
        simp [or_comm]
      have h2' : ((st.out ++ [p]).map Page.hash).Nodup := by
        rw [List.map_append]
        refine List.Nodup.append h2 (by simp) ?_
        intro x hx hx'
        simp only [List.map_cons, List.map_nil, List.mem_singleton] at hx'
        subst hx'
        rw [h1] at hmem
        exact hmem (List.mem_toFinset.mpr hx)
      obtain ⟨r1, r2, r3⟩ := ih ⟨insert p.hash st.seen, st.out ++ [p], st.dups⟩
        hall' h1' h2'
      refine ⟨r1, r2, ?_⟩
      rw [r3]
      ext x
      simp only [Finset.mem_union, Finset.mem_insert, List.map_cons,
        List.toFinset_cons]
      tauto

end Steel

namespace Steel

/-- Claim C4 counterexample: one readable file with two identical pages
whose page-hash computation fails.  Safe mode appends both pages
without registering their hash, so the merged output carries the same
page hash twice — the "no page hash appears twice" half of the claim
fails. -/
theorem C4_counterexample :
    ((mergePdfs true
        [⟨"11111111111111.pdf", some [⟨7, false⟩, ⟨7, false⟩]⟩]).outPages.map
      Page.hash) = [7, 7] ∧
      ¬ ([7, 7] : List Nat).Nodup := by
  constructor
  · decide
  · decide

/-- Claim C4 (amended): for merges with dedup on in which every page's
hash computation succeeds (no safe-mode fallback), the page-hash set of
the output equals the union of the page hashes of all readable input
pages and no page hash appears twice in the output; a page whose hash
computation fails is appended without dedup and can duplicate a hash. -/
theorem C4_merge_dedup (files : List PdfFile)
    (hh : ∀ f ∈ files, ∀ pgs, f.pages = some pgs → ∀ p ∈ pgs, p.hashable = true) :
    ((mergePdfs true files).outPages.map Page.hash).Nodup ∧
      ((mergePdfs true files).outPages.map Page.hash).toFinset =
        ((readablePages files).map Page.hash).toFinset := by
  have hperm : List.Perm (readablePages (List.insertionSort pdfNameLe files))
      (readablePages files) :=
    (List.perm_insertionSort pdfNameLe files).flatMap_right _
  have hset : ((readablePages (List.insertionSort pdfNameLe files)).map
      Page.hash).toFinset = ((readablePages files).map Page.hash).toFinset := by
    ext x
    simp only [List.mem_toFinset]
    exact (hperm.map Page.hash).mem_iff
  have hall : ∀ p ∈ readablePages (List.insertionSort pdfNameLe files),
      p.hashable = true := by
    intro p hp
    rw [readablePages, List.mem_flatMap] at hp
    obtain ⟨f, hf, hpf⟩ := hp
    have hf' : f ∈ files := (List.perm_insertionSort pdfNameLe files).subset hf
    cases hfp : f.pages with
    | none => rw [hfp] at hpf; cases hpf
    | some pgs =>
      refine hh f hf' pgs hfp p ?_
      rwa [hfp] at hpf
  obtain ⟨r1, r2, r3⟩ := mergeFold_spec
    (readablePages (List.insertionSort pdfNameLe files)) ⟨∅, [], 0⟩
    hall (by simp) (by simp)
  have hrun : (mergeRun true files).seen =
      ((mergeRun true files).out.map Page.hash).toFinset := r1
  have hrun2 : ((mergeRun true files).out.map Page.hash).Nodup := r2
  have hrun3 : ((mergeRun true files).out.map Page.hash).toFinset =
      ((readablePages files).map Page.hash).toFinset := by
    rw [← hrun]
    refine r3.trans ?_
    rw [← hset]
    simp
  by_cases hempty : files.isEmpty
  · have : files = [] := List.isEmpty_iff.mp hempty
    subst this
    constructor
    · simp [mergePdfs]
    · simp [mergePdfs, readablePages]
  · by_cases hzero : (mergeRun true files).out.length = 0
    · have hout : (mergeRun true files).out = [] := List.length_eq_zero.mp hzero
      have hres : mergePdfs true files =
          ⟨false, 0, 0, [], some "병합할 유효한 페이지가 없습니다."⟩ := by
        rw [mergePdfs, if_neg hempty, if_pos hzero]
      rw [hres]
      refine ⟨by simp, ?_⟩
      have : ((readablePages files).map Page.hash).toFinset = ∅ := by
        rw [← hrun3, hout]
        simp
      rw [this]
      simp
    · have hres : mergePdfs true files =
          ⟨true, (mergeRun true files).out.length, (mergeRun true files).dups,
            (mergeRun true files).out, none⟩ := by
        rw [mergePdfs, if_neg hempty, if_neg hzero]
      rw [hres]
      exact ⟨hrun2, hrun3⟩

/-- Claim C4 witness: the dedup theorem applied to a concrete group —
two readable files sharing one duplicated page hash — whose output
keeps each hash once. -/
theorem C4_merge_dedup_witness :
    ((mergePdfs true
        [⟨"99999999999999.pdf", some [⟨1, true⟩, ⟨2, true⟩]⟩,
         ⟨"99999999999999(1).pdf", some [⟨2, true⟩, ⟨3, true⟩]⟩]).outPages.map
      Page.hash).Nodup ∧
      ((mergePdfs true
          [⟨"99999999999999.pdf", some [⟨1, true⟩, ⟨2, true⟩]⟩,
           ⟨"99999999999999(1).pdf", some [⟨2, true⟩, ⟨3, true⟩]⟩]).outPages.map
        Page.hash).toFinset =
        ((readablePages
            [⟨"99999999999999.pdf", some [⟨1, true⟩, ⟨2, true⟩]⟩,
             ⟨"99999999999999(1).pdf", some [⟨2, true⟩, ⟨3, true⟩]⟩]).map
          Page.hash).toFinset :=
  C4_merge_dedup
    [⟨"99999999999999.pdf", some [⟨1, true⟩, ⟨2, true⟩]⟩,
     ⟨"99999999999999(1).pdf", some [⟨2, true⟩, ⟨3, true⟩]⟩]
    (by decide)

end Steel

namespace Steel

/-- Metadata of a file as the NAS uploader observes it: its SHA-1 and
its byte size. -/
structure FileMeta where
  hash : Nat
  size : Nat
deriving DecidableEq, Repr

/-- The `result` dict returned by the uploaders (`success`,
`message`). -/
structure UploadResult where
  success : Bool
  message : String
deriving DecidableEq, Repr

/-- Environment of one `NASUploader.upload` call (uploader.py lines
49-101): whether `dest_dir.mkdir` succeeds, the source file's
metadata (`none` models `open`/`stat` raising), the pre-existing
target `<nas-root>/<id>.pdf` if any, and the file found at the target
after `shutil.copy2` (`none` models the copy raising). -/
structure NasEnv where
  mkdirOk : Bool
  srcMeta : Option FileMeta
  destMeta : Option FileMeta
  copyResult : Option FileMeta
deriving DecidableEq, Repr

/-- The copy-and-verify tail of `NASUploader.upload` (lines 86-95):
`shutil.copy2`, then success iff the destination exists with the
source's size, else the raised size-mismatch error is caught by the
surrounding `except`. -/
def nasCopyPhase (src : FileMeta) (destM : Option FileMeta)
    (copyResult : Option FileMeta) : UploadResult × Option FileMeta :=
  match copyResult with
  | none => (⟨false, "NAS 업로드 실패: 복사 오류"⟩, destM)
  | some c =>
    if c.size = src.size then (⟨true, "업로드 성공"⟩, some c)
    else (⟨false, "NAS 업로드 실패: 파일 크기 불일치"⟩, some c)

/-- `NASUploader.upload`: mkdir, hash the source, skip the copy when
the target already holds an identical file, otherwise copy (an
existing target with a different hash is overwritten) and verify the
size.  Every raised error is caught and returned as a failure result
with message `NAS 업로드 실패: <error>`; the second component is the
state of the target file after the call. -/
def nasUpload (env : NasEnv) : UploadResult × Option FileMeta :=
  if !env.mkdirOk then
    (⟨false, "NAS 업로드 실패: 디렉토리 생성 오류"⟩, env.destMeta)
  else
    match env.srcMeta with
    | none => (⟨false, "NAS 업로드 실패: 원본 파일 읽기 오류"⟩, env.destMeta)
    | some src =>
      match env.destMeta with
      | some d =>
        if d.hash = src.hash then (⟨true, "이미 업로드됨 (동일 파일)"⟩, some d)
        else nasCopyPhase src (some d) env.copyResult
      | none => nasCopyPhase src none env.copyResult

/-- Network outcome of one `HTTPUploader.upload` POST. -/
inductive HttpOutcome
  | timeout
  | reqError (msg : String)
  | response (status : Nat) (body : String)
deriving DecidableEq, Repr

/-- Environment of one `HTTPUploader.upload` call (uploader.py lines
132-194). -/
structure HttpEnv where
  srcSize : Option Nat
  maxFileSize : Nat
  timeoutSec : Nat
  outcome : HttpOutcome
deriving DecidableEq, Repr

/-- `HTTPUploader.upload`: size precheck against the configured
maximum, then POST; 200 and 409 are success, a timeout and every
other status or request error are returned as failure results with a
non-empty message — `httpx.TimeoutException` and the generic `except`
are the only handlers. -/
def httpUpload (env : HttpEnv) : UploadResult :=
  match env.srcSize with
  | none => ⟨false, "HTTP 업로드 실패: 원본 파일 읽기 오류"⟩
  | some sz =>
    if env.maxFileSize < sz then ⟨false, "HTTP 업로드 실패: 파일 크기 초과"⟩
    else
      match env.outcome with
      | HttpOutcome.timeout =>
        ⟨false, "업로드 타임아웃 (" ++ toString env.timeoutSec ++ "초)"⟩
      | HttpOutcome.reqError m => ⟨false, "HTTP 업로드 실패: " ++ m⟩
      | HttpOutcome.response s body =>
        if s = 200 then ⟨true, "업로드 성공"⟩
        else if s = 409 then ⟨true, "이미 업로드됨 (멱등성)"⟩
        else ⟨false, "HTTP 업로드 실패: HTTP " ++ toString s ++ ": " ++ body⟩

theorem append_ne_empty_left {s t : String} (hs : s ≠ "") : s ++ t ≠ "" := by
  intro h
  apply hs
  have hd : s.data ++ t.data = [] := congrArg String.data h
  exact string_eq_of_data (List.append_eq_nil.mp hd).1

end Steel

namespace Steel

/-- Claim C5: NAS upload semantics for a reachable target directory and
a readable source file — an existing target with the source's SHA-1 is
success without copying (target untouched); a target with a different
SHA-1 is overwritten by the copy; and after a completed copy the upload
succeeds exactly when the destination size equals the source size. -/
theorem C5_nas_semantics (env : NasEnv) (src : FileMeta)
    (h1 : env.mkdirOk = true) (h2 : env.srcMeta = some src) :
    (∀ d, env.destMeta = some d → d.hash = src.hash →
      nasUpload env = (⟨true, "이미 업로드됨 (동일 파일)"⟩, some d)) ∧
      (∀ d c, env.destMeta = some d → d.hash ≠ src.hash →
        env.copyResult = some c →
          (nasUpload env).2 = some c ∧
            ((nasUpload env).1.success = true ↔ c.size = src.size)) ∧
      (∀ c, env.destMeta = none → env.copyResult = some c →
        (nasUpload env).2 = some c ∧
          ((nasUpload env).1.success = true ↔ c.size = src.size)) := by
  obtain ⟨mk, sm, dm, cr⟩ := env
  simp only at h1 h2
  subst h1
  subst h2
  refine ⟨?_, ?_, ?_⟩
  · intro d hd hh
    simp only at hd
    subst hd
    simp [nasUpload, hh]
  · intro d c hd hh hc
    simp only at hd hc
    subst hd
    subst hc
    by_cases hs : c.size = src.size <;>
      simp [nasUpload, nasCopyPhase, hh, hs]
  · intro c hd hc
    simp only at hd hc
    subst hd
    subst hc
    by_cases hs : c.size = src.size <;>
      simp [nasUpload, nasCopyPhase, hs]

/-- Claim C5 witness: the semantics theorem applied to a concrete
environment in which the target already holds an identical file. -/
theorem C5_nas_semantics_witness :
    nasUpload ⟨true, some ⟨5, 100⟩, some ⟨5, 100⟩, none⟩ =
      (⟨true, "이미 업로드됨 (동일 파일)"⟩, some ⟨5, 100⟩) :=
  (C5_nas_semantics ⟨true, some ⟨5, 100⟩, some ⟨5, 100⟩, none⟩ ⟨5, 100⟩
    rfl rfl).1 ⟨5, 100⟩ rfl rfl

/-- Claim C9: the NAS and HTTP uploaders are total functions into a
result record — no exception escapes to the retry loop — and every
failure result carries a non-empty message. -/
theorem C9_upload_total (e : NasEnv) (h : HttpEnv) :
    ((nasUpload e).1.success = false → (nasUpload e).1.message ≠ "") ∧
      ((httpUpload h).success = false → (httpUpload h).message ≠ "") := by
  constructor
  · intro hf
    obtain ⟨mk, sm, dm, cr⟩ := e
    cases mk
    · intro hmsg
      rw [nasUpload] at hmsg
      simp at hmsg
    · cases sm with
      | none => intro hmsg; rw [nasUpload] at hmsg; simp at hmsg
      | some src =>
        cases dm with
        | some d =>
          by_cases hh : d.hash = src.hash
          · rw [nasUpload] at hf
            simp [hh] at hf
          · cases cr with
            | none =>
              intro hmsg
              rw [nasUpload] at hmsg
              simp [hh, nasCopyPhase] at hmsg
            | some c =>
              by_cases hs : c.size = src.size
              · rw [nasUpload] at hf
                simp [hh, nasCopyPhase, hs] at hf
              · intro hmsg
                rw [nasUpload] at hmsg
                simp [hh, nasCopyPhase, hs] at hmsg
        | none =>
          cases cr with
          | none =>
            intro hmsg
            rw [nasUpload] at hmsg
            simp [nasCopyPhase] at hmsg
          | some c =>
            by_cases hs : c.size = src.size
            · rw [nasUpload] at hf
              simp [nasCopyPhase, hs] at hf
            · intro hmsg
              rw [nasUpload] at hmsg
              simp [nasCopyPhase, hs] at hmsg
  · intro hf
    obtain ⟨ss, mx, ts, oc⟩ := h
    cases ss with
    | none => intro hmsg; rw [httpUpload] at hmsg; simp at hmsg
    | some sz =>
      by_cases hsz : mx < sz
      · intro hmsg
        rw [httpUpload] at hmsg
        simp [hsz] at hmsg
      · cases oc with
        | timeout =>
          rw [httpUpload]
          simp only [hsz, if_false]
          exact append_ne_empty_left (append_ne_empty_left (by decide))
        | reqError m =>
          rw [httpUpload]
          simp only [hsz, if_false]
          exact append_ne_empty_left (by decide)
        | response s body =>
          by_cases h200 : s = 200
          · rw [httpUpload] at hf
            simp [hsz, h200] at hf
          · by_cases h409 : s = 409
            · rw [httpUpload] at hf
              simp [hsz, h200, h409] at hf
            · rw [httpUpload]
              simp only [hsz, h200, h409, if_false]
              exact append_ne_empty_left
                (append_ne_empty_left (append_ne_empty_left (by decide)))

/-- Claim C9 witness: the totality theorem applied to a concrete failed
NAS call (unreadable source) and a concrete timed-out HTTP call. -/
theorem C9_upload_total_witness :
    (nasUpload ⟨true, none, none, none⟩).1.message ≠ "" ∧
      (httpUpload ⟨some 10, 104857600, 60, HttpOutcome.timeout⟩).message ≠ "" :=
  ⟨(C9_upload_total ⟨true, none, none, none⟩
      ⟨some 10, 104857600, 60, HttpOutcome.timeout⟩).1 (by decide),
    (C9_upload_total ⟨true, none, none, none⟩
      ⟨some 10, 104857600, 60, HttpOutcome.timeout⟩).2 (by decide)⟩

end Steel

namespace Steel

/-- The 14-digit validity test of `_process_pending_documents`:
`len(transport_no) == 14 and transport_no.isdigit()`. -/
def isValidTransportNo (s : String) : Bool :=
  decide (s.data.length = 14) && s.data.all Char.isDigit

/-- Contents of the three flat queue folders as the merge cycle scans
them. -/
structure FsState where
  pending : List Entry
  merged : List Entry
  uploaded : List Entry
deriving DecidableEq, Repr

/-- The group the merge cycle builds for transport number `tn`: every
file in each folder whose stem equals `tn`. -/
def groupOf (fs : FsState) (tn : String) : FileGroup :=
  ⟨fs.pending.filter (fun e => decide (e.stem = tn)),
    fs.merged.filter (fun e => decide (e.stem = tn)),
    fs.uploaded.filter (fun e => decide (e.stem = tn))⟩

/-- The distinct valid transport numbers found across the three
folders.  The source groups with a `defaultdict` in first-occurrence
order; the per-number merges touch disjoint files, so the processing
order does not affect the resulting folder state. -/
def validIds (fs : FsState) : List String :=
  (((fs.pending ++ fs.merged ++ fs.uploaded).map Entry.stem).filter
    isValidTransportNo).dedup

/-- Remove every file of transport number `tn` from all folders: the
"원본 파일들 삭제" step after a successful merge (the target path
itself is re-added by `applyMergeGroup`). -/
def removeId (fs : FsState) (tn : String) : FsState :=
  ⟨fs.pending.filter (fun e => decide (e.stem ≠ tn)),
    fs.merged.filter (fun e => decide (e.stem ≠ tn)),
    fs.uploaded.filter (fun e => decide (e.stem ≠ tn))⟩

/-- Net effect of `_merge_transport_group_from_all_folders` on the
folder state for one group: if the group needs re-merging, the merged
artifact `<tn>.pdf` lands in the target folder and every input path
other than the target is deleted. -/
def applyMergeGroup (fs : FsState) (tn : String) : FsState :=
  let g := groupOf fs tn
  if needsRemerge g then
    let fs' := removeId fs tn
    match determineTarget g with
    | Folder.merged => { fs' with merged := fs'.merged ++ [⟨tn, none⟩] }
    | Folder.uploaded => { fs' with uploaded := fs'.uploaded ++ [⟨tn, none⟩] }
    | Folder.pending => fs'
  else fs

/-- One merge cycle (`_process_pending_documents`): group all files by
transport number and re-merge each group that needs it. -/
def mergeCycle (fs : FsState) : FsState :=
  (validIds fs).foldl applyMergeGroup fs

/-- Process-wide state relevant to the PAUSE claim: the `paused` flag
the command handler writes, the single-flight `_processing` flag, and
the folder state. -/
structure AgentState where
  paused : Bool
  processing : Bool
  fs : FsState
deriving DecidableEq, Repr

/-- `execute_command` on `PAUSE` (api/standard.py lines 152-159):
`_processor.paused = True`; nothing else changes. -/
def executePauseCommand (s : AgentState) : AgentState :=
  { s with paused := true }

/-- `BatchProcessor.process_batch` (batch_processor.py lines 44-74):
a no-op when a cycle is already in flight, otherwise it runs the merge
cycle.  The upload, retry and retention phases are DB-queue driven and
elided; the merge cycle alone already moves files between folders.
`process_batch` consults only `_processing` — it never reads
`paused`. -/
def processBatch (s : AgentState) : AgentState :=
  if s.processing then s else { s with fs := mergeCycle s.fs }

/-- One pass of `QRScanProcessor._batch_scheduler` in idle mode
(processor.py lines 267-276): if the idle condition holds, run
`process_batch`.  The `paused` flag set by the PAUSE command has no
reads anywhere in the source, so it does not appear in the
condition. -/
def schedulerTick (s : AgentState) (idleReached : Bool) : AgentState :=
  if idleReached then processBatch s else s

end Steel

namespace Steel

/-- Claim C7: the code contradicts the claim.  Concrete failing run:
after PAUSE is accepted, a state whose merged and uploaded folders
each hold `77777777777777.pdf` goes through one idle scheduler tick;
the cycle runs despite `paused = true` (the flag is written by the
command handler but read nowhere) and the merged copy leaves the
merged folder — it is absorbed into the uploaded artifact. -/
theorem C7_pause_not_observed :
    (executePauseCommand
        ⟨false, false,
          ⟨[], [⟨"77777777777777", none⟩], [⟨"77777777777777", none⟩]⟩⟩).paused
        = true ∧
      (⟨"77777777777777", none⟩ : Entry) ∈
        (executePauseCommand
          ⟨false, false,
            ⟨[], [⟨"77777777777777", none⟩], [⟨"77777777777777", none⟩]⟩⟩).fs.merged ∧
      (schedulerTick
          (executePauseCommand
            ⟨false, false,
              ⟨[], [⟨"77777777777777", none⟩], [⟨"77777777777777", none⟩]⟩⟩)
          true).fs.merged = [] ∧
      (schedulerTick
          (executePauseCommand
            ⟨false, false,
              ⟨[], [⟨"77777777777777", none⟩], [⟨"77777777777777", none⟩]⟩⟩)
          true).fs.uploaded = [⟨"77777777777777", none⟩] := by
  refine ⟨rfl, by decide, by decide, by decide⟩

end Steel

namespace Steel

/-- One entry of `RateLimiter._failures`
(auth/rate_limit.py line 19). -/
structure RLRecord where
  attempts : Nat
  locked_until : Nat
  last_attempt : Nat
deriving DecidableEq, Repr

/-- `RateLimiter` state: configuration plus the per-IP failure map. -/
structure RLState where
  maxAttempts : Nat
  lockoutSeconds : Nat
  failures : List (String × RLRecord)
deriving DecidableEq, Repr

/-- `self._failures[ip]` read. -/
def rlLookup (s : RLState) (ip : String) : Option RLRecord :=
  (s.failures.find? (fun kv => decide (kv.1 = ip))).map Prod.snd

/-- `del self._failures[ip]`. -/
def rlErase (s : RLState) (ip : String) : RLState :=
  { s with failures := s.failures.filter (fun kv => decide (kv.1 ≠ ip)) }

/-- `self._failures[ip] = record` (update in place, insert at the end
when absent, as a Python dict does). -/
def rlSet (s : RLState) (ip : String) (r : RLRecord) : RLState :=
  if s.failures.any (fun kv => decide (kv.1 = ip)) then
    { s with failures :=
        s.failures.map (fun kv => if kv.1 = ip then (ip, r) else kv) }
  else { s with failures := s.failures ++ [(ip, r)] }

/-- `RateLimiter.is_locked` (rate_limit.py lines 22-44): unknown IP is
unlocked; a future `locked_until` is locked with the seconds
remaining; an expired positive `locked_until` deletes the record
("잠금 기간 만료 시 초기화"). -/
def isLocked (s : RLState) (ip : String) (now : Nat) :
    (Bool × Nat) × RLState :=
  match rlLookup s ip with
  | none => ((false, 0), s)
  | some r =>
    if now < r.locked_until then ((true, r.locked_until - now), s)
    else if 0 < r.locked_until then ((false, 0), rlErase s ip)
    else ((false, 0), s)

/-- `RateLimiter.record_failure` (rate_limit.py lines 46-77): create a
zero record when absent, bump `attempts`, stamp `last_attempt`, and
lock for `lockout_seconds` when `attempts >= max_attempts`. -/
def recordFailure (s : RLState) (ip : String) (now : Nat) :
    (Nat × Bool) × RLState :=
  let r0 := (rlLookup s ip).getD ⟨0, 0, now⟩
  let r1 : RLRecord := ⟨r0.attempts + 1, r0.locked_until, now⟩
  if s.maxAttempts ≤ r1.attempts then
    ((r1.attempts, true), rlSet s ip ⟨r1.attempts, now + s.lockoutSeconds, now⟩)
  else ((r1.attempts, false), rlSet s ip r1)

theorem rlLookup_erase (s : RLState) (ip : String) :
    rlLookup (rlErase s ip) ip = none := by
  rw [rlLookup, rlErase]
  have : ∀ l : List (String × RLRecord),
      (l.filter (fun kv => decide (kv.1 ≠ ip))).find?
        (fun kv => decide (kv.1 = ip)) = none := by
    intro l
    induction l with
    | nil => rfl
    | cons kv rest ih =>
      rw [List.filter_cons]
      by_cases hk : kv.1 = ip
      · simp [hk, ih]
      · simp [List.find?_cons, hk, ih]
  rw [this s.failures]
  rfl

end Steel

namespace Steel

/-- Claim C10: once an IP's lockout has expired, the first lock check
deletes its entire failure record and returns unlocked, and a single
subsequent failed attempt restarts the counter at 1 without re-locking
(for any configuration allowing at least two attempts — with
`max_attempts ≤ 1` even a fresh IP locks on its first failure). -/
theorem C10_lockout_reset (s : RLState) (ip : String) (now now2 : Nat)
    (r : RLRecord) (hr : rlLookup s ip = some r) (h1 : 0 < r.locked_until)
    (h2 : r.locked_until ≤ now) (h3 : 2 ≤ s.maxAttempts) :
    (isLocked s ip now).1 = (false, 0) ∧
      rlLookup (isLocked s ip now).2 ip = none ∧
      (recordFailure (isLocked s ip now).2 ip now2).1 = (1, false) := by
  have hstep : isLocked s ip now = ((false, 0), rlErase s ip) := by
    rw [isLocked, hr]
    simp [not_lt.mpr h2, h1]
  rw [hstep]
  refine ⟨rfl, rlLookup_erase s ip, ?_⟩
  have hm : (rlErase s ip).maxAttempts = s.maxAttempts := rfl
  rw [recordFailure, rlLookup_erase s ip]
  simp only [Option.getD_none, hm]
  rw [if_neg (by omega)]

/-- Claim C10 witness: the reset theorem at a concrete limiter state —
IP `10.0.0.1` locked until second 1000 after 5 failures, checked at
second 1000 and failing again at second 1001. -/
theorem C10_lockout_reset_witness :
    (isLocked ⟨5, 900, [("10.0.0.1", ⟨5, 1000, 500⟩)]⟩ "10.0.0.1" 1000).1
        = (false, 0) ∧
      rlLookup
          (isLocked ⟨5, 900, [("10.0.0.1", ⟨5, 1000, 500⟩)]⟩ "10.0.0.1" 1000).2
          "10.0.0.1" = none ∧
      (recordFailure
          (isLocked ⟨5, 900, [("10.0.0.1", ⟨5, 1000, 500⟩)]⟩ "10.0.0.1" 1000).2
          "10.0.0.1" 1001).1 = (1, false) :=
  C10_lockout_reset ⟨5, 900, [("10.0.0.1", ⟨5, 1000, 500⟩)]⟩ "10.0.0.1"
    1000 1001 ⟨5, 1000, 500⟩ (by decide) (by decide) (by decide) (by decide)

end Steel

namespace Steel

/-- A JSON value as the registry stores it: a string or a flat object
(enough for the auth descriptor's fields and its `metadata` dict). -/
inductive JVal
  | str (s : String)
  | obj (kvs : List (String × String))
deriving DecidableEq, Repr

/-- A JSON object: ordered key/value pairs, as Python dicts are. -/
abbrev JDict := List (String × JVal)

/-- The fixed field vocabulary of the `InstanceAuth` dataclass
(registry/manager.py lines 27-46).  `InstanceAuth(**auth_data)`
accepts exactly these keyword names. -/
def authFields : List String :=
  ["type", "username", "password", "token", "refresh_token", "cert_path",
   "key_path", "sso_provider", "redirect_url", "metadata"]

/-- `dict.get`-style lookup with default. -/
def jGetD (d : JDict) (k : String) (dflt : JVal) : JVal :=
  match d.find? (fun kv => decide (kv.1 = k)) with
  | some kv => kv.2
  | none => dflt

/-- The `InstanceAuth` dataclass: ten fixed fields; `type` defaults to
`"basic"`, the credential fields to `""`, `metadata` to `{}` (via
`__post_init__`). -/
structure InstanceAuth where
  type : JVal
  username : JVal
  password : JVal
  token : JVal
  refresh_token : JVal
  cert_path : JVal
  key_path : JVal
  sso_provider : JVal
  redirect_url : JVal
  metadata : JVal
deriving DecidableEq, Repr

/-- `InstanceAuth(**auth_data)`: any key outside the dataclass's field
set raises `TypeError`; otherwise each present field takes the given
value and absent fields take their defaults.  The `type` value itself
is an arbitrary, uninterpreted datum — unknown auth types are
constructed without complaint. -/
def authFromDict (d : JDict) : Except String InstanceAuth :=
  if d.all (fun kv => decide (kv.1 ∈ authFields)) then
    Except.ok
      { type := jGetD d "type" (JVal.str "basic"),
        username := jGetD d "username" (JVal.str ""),
        password := jGetD d "password" (JVal.str ""),
        token := jGetD d "token" (JVal.str ""),
        refresh_token := jGetD d "refresh_token" (JVal.str ""),
        cert_path := jGetD d "cert_path" (JVal.str ""),
        key_path := jGetD d "key_path" (JVal.str ""),
        sso_provider := jGetD d "sso_provider" (JVal.str ""),
        redirect_url := jGetD d "redirect_url" (JVal.str ""),
        metadata := jGetD d "metadata" (JVal.obj []) }
  else Except.error "TypeError: unexpected keyword argument"

/-- `asdict(self.auth)`: every field is emitted, in dataclass field
order. -/
def authToDict (a : InstanceAuth) : JDict :=
  [("type", a.type), ("username", a.username), ("password", a.password),
   ("token", a.token), ("refresh_token", a.refresh_token),
   ("cert_path", a.cert_path), ("key_path", a.key_path),
   ("sso_provider", a.sso_provider), ("redirect_url", a.redirect_url),
   ("metadata", a.metadata)]

/-- The `Instance` dataclass (registry/manager.py lines 81-87). -/
structure InstanceRec where
  id : String
  label : String
  baseUrl : String
  role : String
  auth : InstanceAuth
deriving DecidableEq, Repr

/-- One element of the registry file's `instances` array: its scalar
fields and the optional `auth` sub-object. -/
structure InstItem where
  fields : List (String × String)
  auth : Option JDict
deriving DecidableEq, Repr

/-- `data['<k>']`: direct indexing raises `KeyError` when absent. -/
def itemGetStr (it : InstItem) (k : String) : Except String String :=
  match it.fields.find? (fun kv => decide (kv.1 = k)) with
  | some kv => Except.ok kv.2
  | none => Except.error ("KeyError: " ++ k)

/-- `Instance.from_dict` (registry/manager.py lines 95-107):
`auth = InstanceAuth(**data.get('auth', {}))`, then the four mandatory
scalar fields. -/
def instFromDict (it : InstItem) : Except String InstanceRec := do
  let auth ← authFromDict (it.auth.getD [])
  let id ← itemGetStr it "id"
  let label ← itemGetStr it "label"
  let baseUrl ← itemGetStr it "baseUrl"
  let role ← itemGetStr it "role"
  Except.ok ⟨id, label, baseUrl, role, auth⟩

/-- `Instance.to_dict`. -/
def instToDict (i : InstanceRec) : InstItem :=
  ⟨[("id", i.id), ("label", i.label), ("baseUrl", i.baseUrl),
    ("role", i.role)], some (authToDict i.auth)⟩

/-- The registry file: `{"version": n, "instances": [...]}`. -/
structure RegData where
  version : Nat
  instances : List InstItem
deriving DecidableEq, Repr

/-- `instances[instance.id] = instance` on an insertion-ordered dict:
overwrite in place when the key exists, append otherwise. -/
def regUpsert (m : List (String × InstanceRec)) (k : String)
    (v : InstanceRec) : List (String × InstanceRec) :=
  if m.any (fun kv => decide (kv.1 = k)) then
    m.map (fun kv => if kv.1 = k then (k, v) else kv)
  else m ++ [(k, v)]

/-- One iteration of the `for item in data.get('instances', [])` loop
of `RegistryManager._parse_registry`. -/
def parseStep (m : List (String × InstanceRec)) (it : InstItem) :
    List (String × InstanceRec) :=
  match instFromDict it with
  | Except.ok i => regUpsert m i.id i
  | Except.error _ => m

/-- `RegistryManager._parse_registry` (lines 199-214): build the
id-keyed instance dict; any raising `Instance.from_dict` lands in the
surrounding `except`, which discards everything built so far and
returns the empty dict. -/
def parseRegistry (d : RegData) : List (String × InstanceRec) :=
  if d.instances.all (fun it => (instFromDict it).isOk) then
    d.instances.foldl parseStep []
  else []

/-- `RegistryManager.save` / `export_json` payload assembly
(lines 226-229): the kept version and `to_dict` of every instance in
dict order. -/
def dumpRegistry (version : Nat) (m : List (String × InstanceRec)) : RegData :=
  ⟨version, m.map (fun kv => instToDict kv.2)⟩

theorem authFromDict_toDict (a : InstanceAuth) :
    authFromDict (authToDict a) = Except.ok a := rfl

theorem instFromDict_toDict (i : InstanceRec) :
    instFromDict (instToDict i) = Except.ok i := rfl

theorem regUpsert_inv {m : List (String × InstanceRec)} {k : String}
    {v : InstanceRec} (h1 : ∀ kv ∈ m, kv.1 = kv.2.id)
    (h2 : (m.map Prod.fst).Nodup) (hk : k = v.id) :
    (∀ kv ∈ regUpsert m k v, kv.1 = kv.2.id) ∧
      ((regUpsert m k v).map Prod.fst).Nodup := by
  rw [regUpsert]
  by_cases hin : m.any (fun kv => decide (kv.1 = k)) = true
  · rw [if_pos hin]
    constructor
    · intro kv hkv
      rw [List.mem_map] at hkv
      obtain ⟨kv0, hkv0, rfl⟩ := hkv
      by_cases he : kv0.1 = k
      · rw [if_pos he]
        exact hk
      · rw [if_neg he]
        exact h1 kv0 hkv0
    · have hkeys : (m.map (fun kv => if kv.1 = k then (k, v) else kv)).map
          Prod.fst = m.map Prod.fst := by
        rw [List.map_map]
        refine List.map_congr_left ?_
        intro kv _
        by_cases he : kv.1 = k
        · simp [he]
        · simp [he]
      rw [hkeys]
      exact h2
  · rw [if_neg hin]
    constructor
    · intro kv hkv
      rcases List.mem_append.mp hkv with hkv' | hkv'
      · exact h1 kv hkv'
      · rw [List.mem_singleton] at hkv'
        subst hkv'
        exact hk
    · rw [List.map_append]
      refine List.Nodup.append h2 (by simp) ?_
      intro x hx hx'
      simp only [List.map_cons, List.map_nil, List.mem_singleton] at hx'
      subst hx'
      rw [List.mem_map] at hx
      obtain ⟨kv0, hkv0, hfst⟩ := hx
      apply hin
      rw [List.any_eq_true]
      exact ⟨kv0, hkv0, by simp [hfst]⟩

theorem parse_fold_inv :
    ∀ (items : List InstItem) (acc : List (String × InstanceRec)),
      (∀ kv ∈ acc, kv.1 = kv.2.id) → (acc.map Prod.fst).Nodup →
      (∀ kv ∈ items.foldl parseStep acc, kv.1 = kv.2.id) ∧
        ((items.foldl parseStep acc).map Prod.fst).Nodup := by
  intro items
  induction items with
  | nil => intro acc h1 h2; exact ⟨h1, h2⟩
  | cons it rest ih =>
    intro acc h1 h2
    rw [List.foldl_cons]
    cases hparse : instFromDict it with
    | error e =>
      have : parseStep acc it = acc := by rw [parseStep, hparse]
      rw [this]
      exact ih acc h1 h2
    | ok i =>
      have : parseStep acc it = regUpsert acc i.id i := by
        rw [parseStep, hparse]
      rw [this]
      obtain ⟨r1, r2⟩ := regUpsert_inv h1 h2 rfl
      exact ih _ r1 r2

theorem parseRegistry_inv (d : RegData) :
    (∀ kv ∈ parseRegistry d, kv.1 = kv.2.id) ∧
      ((parseRegistry d).map Prod.fst).Nodup := by
  rw [parseRegistry]
  by_cases hall : d.instances.all (fun it => (instFromDict it).isOk) = true
  · rw [if_pos hall]
    exact parse_fold_inv d.instances [] (by intro kv h; cases h) (by simp)
  · rw [if_neg hall]
    exact ⟨(by intro kv h; cases h), by simp⟩

theorem fold_upsert_fresh :
    ∀ (l acc : List (String × InstanceRec)),
      (∀ kv ∈ l, kv.1 = kv.2.id) →
      (acc.map Prod.fst ++ l.map Prod.fst).Nodup →
      l.foldl (fun m kv => regUpsert m kv.2.id kv.2) acc = acc ++ l := by
  intro l
  induction l with
  | nil => intro acc _ _; simp
  | cons kv rest ih =>
    intro acc h1 h2
    have hid : kv.1 = kv.2.id := h1 kv (List.mem_cons_self _ _)
    have hnotin : ¬ acc.any (fun kv' => decide (kv'.1 = kv.2.id)) = true := by
      intro hany
      rw [List.any_eq_true] at hany
      obtain ⟨kv0, hkv0, hk0⟩ := hany
      rw [decide_eq_true_eq] at hk0
      have hdisj := (List.nodup_append.mp h2).2.2
      exact hdisj (List.mem_map.mpr ⟨kv0, hkv0, hk0⟩)
        (by rw [List.map_cons, ← hid]; exact List.mem_cons_self _ _)
    rw [List.foldl_cons]
    have hstep : regUpsert acc kv.2.id kv.2 = acc ++ [(kv.2.id, kv.2)] := by
      rw [regUpsert, if_neg hnotin]
    have hkv : (kv.2.id, kv.2) = kv := by
      rw [← hid]
    rw [hstep, hkv]
    have h2' : ((acc ++ [kv]).map Prod.fst ++ rest.map Prod.fst).Nodup := by
      rw [List.map_append]
      simpa [List.append_assoc] using h2
    rw [ih (acc ++ [kv]) (fun kv' h => h1 kv' (List.mem_cons_of_mem _ h)) h2',
      List.append_assoc]
    rfl

end Steel

namespace Steel

/-- Claim C8 counterexample: an instance entry whose auth descriptor
has the unknown type `oauth` together with that type's extra field
`client_id`.  `InstanceAuth(**auth_data)` raises `TypeError` on the
unknown keyword, and `_parse_registry` then discards the whole
registry: the entry is rejected at load time rather than round-tripped. -/
theorem C8_counterexample :
    instFromDict
        ⟨[("id", "kiosk-1"), ("label", "Kiosk 1"),
          ("baseUrl", "https://k1.example"), ("role", "kiosk")],
          some [("type", JVal.str "oauth"), ("client_id", JVal.str "abc")]⟩ =
      Except.error "TypeError: unexpected keyword argument" ∧
    parseRegistry
        ⟨1, [⟨[("id", "kiosk-1"), ("label", "Kiosk 1"),
          ("baseUrl", "https://k1.example"), ("role", "kiosk")],
          some [("type", JVal.str "oauth"), ("client_id", JVal.str "abc")]⟩]⟩ =
      [] := by
  constructor
  · rfl
  · rfl

/-- Claim C8 (amended): load → save → load is the identity on the
parsed registry — so the canonical serialization round-trips
byte-equivalently — and an auth descriptor carrying any `type` value,
unknown ones included, survives the dataclass round-trip losslessly as
long as its keys stay inside the fixed field set; a key outside that
set raises `TypeError` and makes the load return an empty registry. -/
theorem C8_registry_roundtrip :
    (∀ a : InstanceAuth, authFromDict (authToDict a) = Except.ok a) ∧
      ∀ (v : Nat) (d : RegData),
        parseRegistry (dumpRegistry v (parseRegistry d)) = parseRegistry d := by
  refine ⟨authFromDict_toDict, ?_⟩
  intro v d
  obtain ⟨hinv1, hinv2⟩ := parseRegistry_inv d
  rw [parseRegistry]
  have hall : (dumpRegistry v (parseRegistry d)).instances.all
      (fun it => (instFromDict it).isOk) = true := by
    rw [List.all_eq_true]
    intro it hit
    rw [dumpRegistry] at hit
    simp only [List.mem_map] at hit
    obtain ⟨kv, -, rfl⟩ := hit
    rw [instFromDict_toDict]
    rfl
  rw [if_pos hall]
  show ((parseRegistry d).map (fun kv => instToDict kv.2)).foldl parseStep [] =
    parseRegistry d
  rw [List.foldl_map]
  have hfun : (fun m kv => parseStep m (instToDict
      (kv : String × InstanceRec).2)) =
      fun m kv => regUpsert m kv.2.id kv.2 := by
    funext m kv
    rw [parseStep, instFromDict_toDict]
  rw [hfun]
  have := fold_upsert_fresh (parseRegistry d) [] hinv1 (by simpa using hinv2)
  rw [this]
  simp

end Steel

namespace Steel

/-- Claim C1 witness: the amended rule applied at a concrete group with
only an uploaded file. -/
theorem C1_target_folder_witness :
    determineTarget ⟨[], [], [⟨"20251010123456", none⟩]⟩ = Folder.uploaded :=
  (C1_target_folder ⟨[], [], [⟨"20251010123456", none⟩]⟩).1.mpr
    ⟨rfl, by decide⟩

/-- Claim C2 witness: the amended statement applied at a concrete
transport number on an empty pending tree. -/
theorem C2_move_to_pending_witness :
    (moveToPending [] "20251010123456").subdir =
      some (String.mk ("20251010123456".data.take 8)) :=
  (C2_move_to_pending [] "20251010123456").1

/-- Claim C3 witness: the amended order statement applied at a
concrete two-file group. -/
theorem C3_merge_order_witness :
    (effectiveMergeOrder
        [⟨"20251010123456.pdf", Folder.pending, 5⟩,
         ⟨"20251010123456.pdf", Folder.uploaded, 10⟩]).Sorted effLe :=
  (C3_merge_order
    [⟨"20251010123456.pdf", Folder.pending, 5⟩,
     ⟨"20251010123456.pdf", Folder.uploaded, 10⟩]).2

/-- Claim C8 witness: the round-trip theorem applied at a concrete
registry holding one instance with an unknown auth type but only known
field names. -/
theorem C8_registry_roundtrip_witness :
    parseRegistry
        (dumpRegistry 1 (parseRegistry
          ⟨1, [⟨[("id", "kiosk-1"), ("label", "Kiosk 1"),
            ("baseUrl", "https://k1.example"), ("role", "kiosk")],
            some [("type", JVal.str "sso")]⟩]⟩)) =
      parseRegistry
        ⟨1, [⟨[("id", "kiosk-1"), ("label", "Kiosk 1"),
          ("baseUrl", "https://k1.example"), ("role", "kiosk")],
          some [("type", JVal.str "sso")]⟩]⟩ :=
  C8_registry_roundtrip.2 1
    ⟨1, [⟨[("id", "kiosk-1"), ("label", "Kiosk 1"),
      ("baseUrl", "https://k1.example"), ("role", "kiosk")],
      some [("type", JVal.str "sso")]⟩]⟩

end Steel
